import Mathlib

/-!
Shallow embedding of the download core of the `fetch-data` repository
(`fetch_data/core.py` together with the helpers it uses from
`fetch_data/utils.py`), and proofs about its behaviour.

Conventions of the embedding:
* Python strings are Lean `String`s; character-level helpers (`containsSub`,
  `splitOnCharList`, ...) model the Python `in`, `split`, `join`, `lower`,
  `startswith` operations.
* Python exceptions are modelled with `Except PyErr`; an uncaught exception is
  an `Except.error` value that propagates through the callers.
* The local file system (used for the URL cache) is an association list from
  path to file content; network access (`fsspec` glob, `pooch.retrieve`) is
  modelled by oracle functions passed as explicit arguments, so that
  "no network activity" is expressible as independence from the oracle.
* Machine integers do not occur; Python's unbounded `int` is `Int`.
-/

namespace FetchData

/-! ### Character-level string helpers (models of Python `str` operations) -/

/-- Boolean test that `needle` is a prefix of `hay` (char lists). -/
def isPre : List Char → List Char → Bool
  | [], _ => true
  | _ :: _, [] => false
  | a :: as, b :: bs => if a = b then isPre as bs else false

/-- Boolean test that `needle` occurs as a contiguous substring of `hay`. -/
def containsSub : List Char → List Char → Bool
  | [], needle => needle.isEmpty
  | c :: t, needle => isPre needle (c :: t) || containsSub t needle

/-- Model of Python's `needle in hay` on strings. -/
def pyIn (needle hay : String) : Bool :=
  containsSub hay.toList needle.toList

/-- Model of Python's `str.lower` (ASCII is all the repository uses). -/
def pyLower (s : String) : String :=
  String.mk (s.toList.map Char.toLower)

/-- Model of Python's `s.startswith(pre)`. -/
def pyStartsWith (s pre : String) : Bool :=
  isPre pre.toList s.toList

/-- Model of Python's `s.split(sep)` for a one-character separator:
`""` splits to `[""]`, and separators delimit (possibly empty) fields. -/
def splitOnCharList (sep : Char) : List Char → List (List Char)
  | [] => [[]]
  | x :: t =>
    if x = sep then [] :: splitOnCharList sep t
    else
      match splitOnCharList sep t with
      | [] => [[x]]
      | r :: rs => (x :: r) :: rs

/-- Model of Python's `sep.join(l)` for a one-character separator. -/
def joinWithChar (sep : Char) : List (List Char) → List Char
  | [] => []
  | [x] => x
  | x :: y :: t => x ++ sep :: joinWithChar sep (y :: t)

/-- `"\n".join(flist)`, as written by the URL-cache writer. -/
def pyJoinNl (l : List String) : String :=
  String.mk (joinWithChar '\n' (l.map String.toList))

/-- `content.split("\n")`, as read by the URL-cache reader. -/
def pySplitNl (s : String) : List String :=
  (splitOnCharList '\n' s.toList).map String.mk

/-- Lexicographic comparison of char lists by code point — the order Python
uses to compare strings. -/
def charListLe : List Char → List Char → Bool
  | [], _ => true
  | _ :: _, [] => false
  | a :: as, b :: bs =>
    if a = b then charListLe as bs else decide (a.val < b.val)

/-- Model of Python's `sorted` on a list of strings (stable ascending sort;
for strings any two equal keys are equal elements, so insertion sort gives
exactly the `sorted` result). -/
def pySorted (l : List String) : List String :=
  List.insertionSort (fun a b => charListLe a.toList b.toList = true) l

/-- Split `hay` at the first occurrence of `needle`: returns the part before
and the part after the occurrence, or `none` when `needle` does not occur. -/
def breakSub (needle : List Char) : List Char → Option (List Char × List Char)
  | [] => if needle.isEmpty then some ([], []) else none
  | c :: t =>
    if isPre needle (c :: t) then some ([], (c :: t).drop needle.length)
    else (breakSub needle t).map (fun p => (c :: p.1, p.2))

/-- Replace every occurrence of `pat` in a char list by `rep`
(model of `str.format`/`str.replace` for one placeholder). -/
def replaceSub (pat rep : List Char) : List Char → List Char
  | [] => []
  | c :: t =>
    if _h : pat ≠ [] ∧ isPre pat (c :: t) = true then
      rep ++ replaceSub pat rep (t.drop (pat.length - 1))
    else
      c :: replaceSub pat rep t
termination_by l => l.length
decreasing_by
  · simp only [List.length_drop, List.length_cons]
    omega
  · simp only [List.length_cons]
    omega

/-- Model of `urllib.parse.urlparse` restricted to the `scheme://netloc/path`
shapes that occur in this repository (no query/fragment/params): returns
`(scheme, netloc, path)`, with the scheme lower-cased as `urlparse` does and
the path keeping its leading slash.  A string without `"://"` parses as
`("", "", url)`. -/
def pyUrlparse (url : String) : String × String × String :=
  match breakSub ("://".toList) url.toList with
  | none => ("", "", url)
  | some (schemeCs, rest) =>
    (String.mk (schemeCs.map Char.toLower),
     String.mk (rest.takeWhile (fun c => c ≠ '/')),
     String.mk (rest.dropWhile (fun c => c ≠ '/')))

/-- `url.split("/")[-1]`: the last path segment, used as the local filename. -/
def lastSegment (url : String) : String :=
  String.mk (((splitOnCharList '/' url.toList).getLast?).getD [])

/-! ### Errors, credentials, and the task data model -/

/-- The Python exceptions raised (or propagated) by the embedded code. -/
inductive PyErr
  | typeError (msg : String)
  | attributeError (msg : String)
  | valueError (msg : String)
  | keyError (msg : String)
  | fileNotFoundError (msg : String)
  | zeroDivisionError
  | keyboardInterrupt (msg : String)
  | exception (msg : String)
  deriving DecidableEq, Repr

/-- The `login` dict: may carry `username`, `password`, `cookies` entries. -/
structure Login where
  username : Option String := none
  password : Option String := none
  cookies : Option String := none
  deriving DecidableEq, Repr

/-- The empty `login={}` dict. -/
def emptyLogin : Login := {}

/-- The keyword arguments the chosen downloader class is finally called with:
either the `login` dict unchanged (FTP, or HTTP with empty login), or the
rewritten `dict(cookies=...)` / `dict(auth=(user, pass))` forms. -/
inductive DLArgs
  | plain (l : Login)
  | cookies (c : String)
  | auth (username password : String)
  deriving DecidableEq, Repr

/-- The prepared `pooch` downloader: which protocol class was selected
(`ftp` ↦ `FTPDownloader`, `http`/`https` ↦ `HTTPDownloader`), the
`progressbar` argument (a Python int, since the source computes it with
`//` and `&`), and the forwarded keyword arguments. -/
structure Downloader where
  scheme : String
  progressbar : Int
  args : DLArgs
  deriving DecidableEq, Repr

/-- The decompression processors of the fixed table in `choose_processor`. -/
inductive Processor
  | decompress
  | untar
  | unzip
  deriving DecidableEq, Repr

/-- One download task assembled by `download_urls` (the dict passed to
`pooch.retrieve`): url, destination filename and directory, optional
processor, prepared downloader. -/
structure Task where
  url : String
  fname : String
  path : String
  processor : Option Processor
  downloader : Downloader
  deriving DecidableEq, Repr

/-- Outcome of one attempted `pooch.retrieve` call: the retrieved local file
name, a `KeyboardInterrupt`, or any other exception with its message. -/
inductive RetrieveOutcome
  | ok (fname : String)
  | kbInterrupt (msg : String)
  | err (msg : String)
  deriving DecidableEq, Repr

/-- Outcome of an `fsspec` `fs.glob(path)` call: the matched entries, or the
`AttributeError` / `TypeError` failures that `get_url_list` catches. -/
inductive GlobResult
  | ok (files : List String)
  | attrError
  | typeError
  deriving DecidableEq, Repr

/-- The local file system as an association list from path to file content;
later entries are shadowed by earlier ones, so writing prepends. -/
abbrev FS := List (String × String)

/-- Read the content of the file at path `p`, if present. -/
def FS.read : FS → String → Option String
  | [], _ => none
  | (q, c) :: t, p => if q = p then some c else FS.read t p

/-- (Over)write the file at path `p` with content `c`. -/
def FS.write (fs : FS) (p c : String) : FS := (p, c) :: fs

/-- The `verbose` argument of `download`: Python bool, int, or anything else
(the last raises `TypeError`). -/
inductive Verbose
  | bool (b : Bool)
  | int (i : Int)
  | other
  deriving DecidableEq, Repr

/-- The `url` argument of `download`: a single string or a list of strings
(a Python tuple behaves as the list case). -/
inductive UrlArg
  | str (s : String)
  | list (l : List String)
  deriving DecidableEq, Repr

/-! ### `fetch_data/utils.py` -/

/-- Inner loop body state for `longest_substring_finder`: `(answer, match)`.
One step of the `for j in range(len2)` loop. -/
def lsfStep (c1 c2 : List Char) (i : Nat) (st : List Char × List Char)
    (j : Nat) : List Char × List Char :=
  if i + j < c1.length ∧ c1.getD (i + j) ' ' = c2.getD j ' ' then
    (st.1, st.2 ++ [c2.getD j ' '])
  else
    (if st.2.length > st.1.length then st.2 else st.1, [])

/-- `utils.longest_substring_finder(string1, string2)`, embedded faithfully:
`answer` persists across the outer loop, `match` restarts empty at each `i`
and is only compared against `answer` when a position fails to match — the
run still open when the inner loop ends is discarded. -/
def longest_substring_finder (string1 string2 : String) : String :=
  let c1 := string1.toList
  let c2 := string2.toList
  String.mk
    ((List.range c1.length).foldl
      (fun answer i =>
        ((List.range c2.length).foldl (lsfStep c1 c2 i) (answer, [])).1)
      [])

/-- `utils.commong_substring(input_list)`.  The Python function returns a
string for a non-empty list and falls off the end (returning `None`) for an
empty one, hence the `Option`.  For more than two items it reduces
left-to-right and then applies one extra reduction with the last item. -/
def commong_substring (input_list : List String) : Option String :=
  if input_list.length = 2 then
    some (longest_substring_finder (input_list.getD 0 "") (input_list.getD 1 ""))
  else if input_list.length > 2 then
    let item0 := input_list.tail.foldl longest_substring_finder (input_list.getD 0 "")
    some (longest_substring_finder item0 ((input_list.getLast?).getD ""))
  else if input_list.length = 1 then
    some (input_list.getD 0 "")
  else
    none

/-! ### `fetch_data/core.py` -/

/-- `cache_path.format(hash=make_hash_string(url))`, applied only when the
path contains the `"{hash}"` placeholder.  `make_hash_string` is a truncated
md5 of the url computed by `hashlib`; it is passed in as the function
`hashFn`. -/
def resolveCachePath (cache_path : String) (hashFn : String → String)
    (url : String) : String :=
  if pyIn "{hash}" cache_path then
    String.mk (replaceSub ("{hash}".toList) ((hashFn url).toList) cache_path.toList)
  else cache_path

/-- The path handed to `fs.glob`: for `http(s)` the source rebuilds the full
url `f"{protocol}://{host}/{path}"` (note the double slash, since the parsed
path keeps its leading slash); otherwise the parsed path is used. -/
def globPathOf (url : String) : String :=
  let protocol := (pyUrlparse url).1
  let host := (pyUrlparse url).2.1
  let path := (pyUrlparse url).2.2
  if pyStartsWith protocol "http" then
    protocol ++ "://" ++ host ++ "/" ++ path
  else path

/-- The listing part of `core.get_url_list` after the cache miss: glob the
remote path (errors converted as in the source), re-prefix the results with
`protocol://host` whenever the protocol does not start with `"https"`
(this is the condition exactly as written on core.py line 215), write the
joined list to the cache file when caching is on, and return the sorted
list.  The source calls `fs.glob(path)` a second time inside the re-prefix
list comprehension; the oracle is deterministic, so the same entries are
reused.  Credentials only configure the `fsspec` filesystem handle and are
absorbed into the `glob` oracle. -/
def get_url_list_remote (url : String) (use_cache : Bool) (cache_path : String)
    (glob : String → GlobResult) (fs : FS) : Except PyErr (List String × FS) :=
  let protocol := (pyUrlparse url).1
  let host := (pyUrlparse url).2.1
  match glob (globPathOf url) with
  | .attrError =>
    .error (.fileNotFoundError ("The given url does not exist: " ++ url))
  | .typeError =>
    .error (.keyError ("The host " ++ protocol ++ "://" ++ host ++
      " does not accept username/password"))
  | .ok l =>
    let flist :=
      if pyStartsWith protocol "https" = false then
        l.map (fun f => protocol ++ "://" ++ host ++ f)
      else l
    let fs2 := if use_cache then FS.write fs cache_path (pyJoinNl flist) else fs
    .ok (pySorted flist, fs2)

/-- `core.get_url_list(url, username, password, use_cache, cache_path)`:
non-wildcard urls are returned as a singleton immediately; with caching on,
an existing cache file is read line-by-line and returned sorted without any
remote access; otherwise the remote listing runs. -/
def get_url_list (url : String) (username password : Option String)
    (use_cache : Bool) (cache_path : String) (hashFn : String → String)
    (glob : String → GlobResult) (fs : FS) : Except PyErr (List String × FS) :=
  if pyIn "*" url = false then .ok ([url], fs)
  else
    let cp := resolveCachePath cache_path hashFn url
    match use_cache, FS.read fs cp with
    | true, some content => .ok (pySorted (pySplitNl content), fs)
    | true, none => get_url_list_remote url true cp glob fs
    | false, _ => get_url_list_remote url false cp glob fs

/-- The protocols of the `known_downloaders` table in `core.choose_downloader`. -/
def knownScheme (s : String) : Bool :=
  s == "ftp" || s == "http" || s == "https"

/-- `core.choose_downloader(url, login, progress)`: reject unknown schemes
with `ValueError`; for http(s) urls with a non-empty login dict rewrite the
credentials (`cookies` checked first and taken alone, else a complete
username/password pair becomes an `auth` tuple, else `KeyError`); finally
instantiate the downloader with `progressbar=progress` and the resulting
keyword arguments. -/
def choose_downloader (url : String) (login : Login) (progress : Int) :
    Except PyErr Downloader :=
  let scheme := (pyUrlparse url).1
  if knownScheme scheme = false then
    .error (.valueError ("Unrecognized URL protocol " ++ scheme ++ " in " ++ url ++
      ". Must be one of ftp http https."))
  else
    if pyStartsWith (pyLower url) "http" = true ∧ login ≠ emptyLogin then
      if login.cookies.isSome then
        .ok { scheme := scheme, progressbar := progress,
              args := .cookies (login.cookies.getD "") }
      else if login.username.isSome ∧ login.password.isSome then
        .ok { scheme := scheme, progressbar := progress,
              args := .auth (login.username.getD "") (login.password.getD "") }
      else
        .error (.keyError "login can only contain (username, password) OR cookies")
    else
      .ok { scheme := scheme, progressbar := progress, args := .plain login }

/-- The ordered `known_processors` table of `core.choose_processor`.  The
final entry maps `None` to the one-character string `"*"`, which Python
iterates as the single extension `"*"`. -/
def known_processors : List (Option Processor × List String) :=
  [(some .decompress, [".gz2", ".gz"]),
   (some .untar, [".tar", ".tgz", ".tar.gz"]),
   (some .unzip, [".zip"]),
   (none, ["*"])]

/-- `core.choose_processor(url)`: scan the table in order, and each time an
extension occurs anywhere in `url.lower()` overwrite the chosen processor —
the last matching table entry wins. -/
def choose_processor (url : String) : Option Processor :=
  known_processors.foldl
    (fun chosen pe =>
      pe.2.foldl (fun ch ext => if pyIn ext (pyLower url) then pe.1 else ch) chosen)
    none

/-- The inner `pooch_retrieve_handling(kwargs)` of `core.download_urls`.
The first `try` block returns `(0, fname)` on success and has a single
`except KeyboardInterrupt` clause that re-raises; every other exception has
no matching handler and propagates out of the function.  Consequently the
remaining statements of the source (retry with `progressbar = False`, and
the final attempt that returns `(1, url)`) are unreachable in every
execution and have no counterpart here. -/
def pooch_retrieve_handling (retrieve : String → Int → RetrieveOutcome)
    (t : Task) : Except PyErr (Int × String) :=
  match retrieve t.url t.downloader.progressbar with
  | .ok f => .ok (0, f)
  | .kbInterrupt m => .error (.keyboardInterrupt m)
  | .err m => .error (.exception m)

/-- Python floor division `a // b` on ints (`ZeroDivisionError` at zero). -/
def pyFloorDiv (a b : Int) : Except PyErr Int :=
  if b = 0 then .error .zeroDivisionError else .ok (Int.fdiv a b)

/-- `x & flag` where `flag` is a Python bool (0 or 1): masking with 1 keeps
the low bit, which for any int equals `x mod 2` in two's complement; masking
with 0 gives 0. -/
def pyAnd01 (x flag : Int) : Int :=
  if flag = 1 then Int.emod x 2 else 0

/-- The `download_args` construction loop of `core.download_urls`: one task
dict per url, in order; the first failing `choose_downloader` call aborts
the loop with its exception. -/
def buildTasks (dest_dir : String) (login : Login) (decompress : Bool)
    (progressbar : Int) : List String → Except PyErr (List Task)
  | [] => .ok []
  | url :: rest =>
    match choose_downloader url login progressbar with
    | .error e => .error e
    | .ok d =>
      match buildTasks dest_dir login decompress progressbar rest with
      | .error e => .error e
      | .ok ts =>
        .ok ({ url := url, fname := lastSegment url, path := dest_dir,
               processor := if decompress then choose_processor url else none,
               downloader := d } :: ts)

/-- Run the per-task handler over the task list in order (the sequential
list comprehension; `joblib.Parallel(prefer="threads")` also returns results
in dispatch order and re-raises a worker's exception, so the `1 < n <= 8`
branch evaluates to the same function of the oracle). -/
def runTasks (retrieve : String → Int → RetrieveOutcome) :
    List Task → Except PyErr (List (Int × String))
  | [] => .ok []
  | t :: ts =>
    match pooch_retrieve_handling retrieve t with
    | .error e => .error e
    | .ok r =>
      match runTasks retrieve ts with
      | .error e => .error e
      | .ok rs => .ok (r :: rs)

/-- `core.download_urls(urls, n_jobs, dest_dir, login, decompress)`:
compute the progressbar flag `(1 // n_jobs) & (level <= 20)`, build the task
list, clamp `n_jobs = min(n_jobs, len(download_args))`, then run
sequentially when the clamp is 1, in the thread pool when `1 < n <= 8`, and
otherwise raise; finally keep the results whose status is 0.  `level` is the
current level of the `fetch_data` logger.  The `retrieve` oracle maps
`(url, progressbar)` to the outcome of `pooch.retrieve`. -/
def download_urls (urls : List String) (n_jobs : Int) (dest_dir : String)
    (login : Login) (decompress : Bool) (level : Int)
    (retrieve : String → Int → RetrieveOutcome) : Except PyErr (List String) :=
  match pyFloorDiv 1 n_jobs with
  | .error e => .error e
  | .ok q =>
    let progressbar := pyAnd01 q (if level ≤ 20 then 1 else 0)
    match buildTasks dest_dir login decompress progressbar urls with
    | .error e => .error e
    | .ok tasks =>
      let n : Int := min n_jobs (tasks.length : Int)
      if n = 1 then
        match runTasks retrieve tasks with
        | .error e => .error e
        | .ok flist => .ok ((flist.filter (fun p => p.1 = 0)).map (fun p => p.2))
      else if 1 < n ∧ n ≤ 8 then
        match runTasks retrieve tasks with
        | .error e => .error e
        | .ok flist => .ok ((flist.filter (fun p => p.1 = 0)).map (fun p => p.2))
      else
        .error (.exception "n_jobs must be between 1 and 8 to avoid too many requests")

/-- The url short form computed by `core.create_download_readme`: a list url
becomes `commong_substring(url) + "..."`, which is a `TypeError` when
`commong_substring` returned `None` (empty list); a string url is used
as is. -/
def create_download_readme_url (url : UrlArg) : Except PyErr String :=
  match url with
  | .str s => .ok s
  | .list l =>
    match commong_substring l with
    | some s => .ok (s ++ "...")
    | none =>
      .error (.typeError "unsupported operand type(s) for +: NoneType and str")

/-- `core.create_download_readme(fname, **entry)` reduced to its fallible
part: computing the url short form (and then writing the README file, a file
side effect outside the claims). -/
def create_download_readme (url : UrlArg) : Except PyErr Unit :=
  match create_download_readme_url url with
  | .error e => .error e
  | .ok _ => .ok ()

/-- `core.download(url, login, dest, n_jobs, use_cache, cache_name, verbose,
decompress, create_readme)`, the orchestrator.  String-placeholder
`format_map` calls and `~` expansion are identity on the placeholder-free
inputs the claims use and are not modelled.  The `logger.log(20, ...)` call
after url resolution builds its f-string message eagerly, which evaluates
`commong_substring(urls).format_map(kwargs)` regardless of the logging
level — `AttributeError` when `commong_substring` returned `None`.  The
executor result is never `None` here, so the final `ValueError` guard of the
source is unreachable and flattening is the identity on the returned
paths. -/
def download (url : UrlArg) (login : Login) (dest : String) (n_jobs : Int)
    (use_cache : Bool) (cache_name : String) (verbose : Verbose)
    (decompress : Bool) (create_readme : Bool) (hashFn : String → String)
    (glob : String → GlobResult) (retrieve : String → Int → RetrieveOutcome)
    (fs : FS) : Except PyErr (List String × FS) :=
  let levelRes : Except PyErr Int :=
    match verbose with
    | .bool b => .ok (if b then 15 else 40)
    | .int i => .ok i
    | .other => .error (.typeError "verbose must be bool or intiger")
  match levelRes with
  | .error e => .error e
  | .ok lvl =>
    match (if create_readme then create_download_readme url else .ok ()) with
    | .error e => .error e
    | .ok _ =>
      let urlsRes : Except PyErr (List String × FS) :=
        match url with
        | .list l => .ok (l, fs)
        | .str s =>
          if pyIn "*" s then
            get_url_list s login.username login.password use_cache
              (dest ++ "/" ++ cache_name) hashFn glob fs
          else .ok ([s], fs)
      match urlsRes with
      | .error e => .error e
      | .ok (urls, fs1) =>
        match commong_substring urls with
        | none => .error (.attributeError "NoneType object has no attribute format_map")
        | some _ =>
          if urls.length = 0 then .ok ([], fs1)
          else
            match download_urls urls n_jobs dest login decompress lvl retrieve with
            | .error e => .error e
            | .ok flist => .ok (flist, fs1)

/-! ### Concrete oracles and inputs used in the closed theorems -/

/-- A fixed stand-in for the md5-based `make_hash_string`. -/
def hashH : String → String := fun _ => "H"

/-- A glob oracle whose every listing succeeds with no matches. -/
def globEmptyOk : String → GlobResult := fun _ => .ok []

/-- A glob oracle for `http://h/d/*.nc`: the server lists one full url
(`fsspec`'s HTTP filesystem globs full urls). -/
def globHttpA : String → GlobResult :=
  fun p => if p = "http://h//d/*.nc" then .ok ["http://h/d/a.nc"] else .ok []

/-- A glob oracle for `ftp://h/d/*.nc`: the server lists two host-relative
paths, in non-sorted order. -/
def globFtp1 : String → GlobResult :=
  fun p => if p = "/d/*.nc" then .ok ["/d/b.nc", "/d/a.nc"] else .ok []

/-- A retrieve oracle whose every attempt succeeds. -/
def rOkA : String → Int → RetrieveOutcome := fun _ _ => .ok "/tmp/x.nc"

/-- A retrieve oracle whose every attempt raises a generic exception. -/
def rErrA : String → Int → RetrieveOutcome := fun _ _ => .err "boom"

/-- A retrieve oracle whose every attempt raises `KeyboardInterrupt`. -/
def rKbA : String → Int → RetrieveOutcome :=
  fun _ _ => .kbInterrupt "KeyboardInterrupt"

/-- A concrete download task for `http://h/a.nc`. -/
def taskA : Task :=
  { url := "http://h/a.nc", fname := "a.nc", path := ".", processor := none,
    downloader := { scheme := "http", progressbar := 1, args := .plain emptyLogin } }

/-- The file system after the first (cache-writing) `ftp://h/d/*.nc` listing. -/
def fsAfterFtp : FS := [("cache.txt", "ftp://h/d/b.nc\nftp://h/d/a.nc")]

/-- The sorted url list returned by the `ftp://h/d/*.nc` listing. -/
def outFtp : List String := ["ftp://h/d/a.nc", "ftp://h/d/b.nc"]

/-! ### Helper lemmas about the string models -/

theorem isPre_trans (a : List Char) :
    ∀ (b c : List Char), isPre a b = true → isPre b c = true → isPre a c = true := by
  induction a with
  | nil => intro b c _ _; rfl
  | cons x xs ih =>
    intro b c h1 h2
    cases b with
    | nil => simp [isPre] at h1
    | cons y ys =>
      cases c with
      | nil => simp [isPre] at h2
      | cons z zs =>
        simp only [isPre] at h1 h2 ⊢
        by_cases hxy : x = y
        · subst hxy
          rw [if_pos rfl] at h1
          by_cases hyz : x = z
          · subst hyz
            rw [if_pos rfl] at h2 ⊢
            exact ih ys zs h1 h2
          · rw [if_neg hyz] at h2
            exact absurd h2 (by simp)
        · rw [if_neg hxy] at h1
          exact absurd h1 (by simp)

theorem containsSub_mono (hay : List Char) :
    ∀ (n1 n2 : List Char), isPre n2 n1 = true → containsSub hay n1 = true →
      containsSub hay n2 = true := by
  induction hay with
  | nil =>
    intro n1 n2 hp h
    simp only [containsSub] at h ⊢
    cases n1 with
    | nil =>
      cases n2 with
      | nil => rfl
      | cons a as => simp [isPre] at hp
    | cons a as => simp at h
  | cons c t ih =>
    intro n1 n2 hp h
    simp only [containsSub, Bool.or_eq_true] at h ⊢
    cases h with
    | inl h => exact Or.inl (isPre_trans n2 n1 (c :: t) hp h)
    | inr h => exact Or.inr (ih n1 n2 hp h)

theorem pyIn_mono (n1 n2 s : String) (hp : isPre n2.toList n1.toList = true)
    (h : pyIn n1 s = true) : pyIn n2 s = true :=
  containsSub_mono s.toList n1.toList n2.toList hp h

theorem containsSub_singleton (hay : List Char) (c : Char) :
    containsSub hay [c] = true ↔ c ∈ hay := by
  induction hay with
  | nil => simp [containsSub]
  | cons x t ih =>
    simp only [containsSub, Bool.or_eq_true, List.mem_cons]
    constructor
    · rintro (h | h)
      · simp only [isPre] at h
        by_cases hcx : c = x
        · exact Or.inl hcx
        · rw [if_neg hcx] at h
          exact absurd h (by simp)
      · exact Or.inr (ih.mp h)
    · rintro (h | h)
      · subst h
        left
        simp [isPre]
      · exact Or.inr (ih.mpr h)

theorem toList_mk (cs : List Char) : (String.mk cs).toList = cs := rfl

theorem mk_toList (s : String) : String.mk s.toList = s := rfl

theorem pyIn_newline_iff (s : String) : pyIn "\n" s = true ↔ '\n' ∈ s.toList :=
  containsSub_singleton s.toList '\n'

theorem splitOnCharList_no_sep (sep : Char) (x : List Char) (hx : sep ∉ x) :
    splitOnCharList sep x = [x] := by
  induction x with
  | nil => rfl
  | cons a t ih =>
    have ha : a ≠ sep := fun h => hx (h ▸ List.mem_cons_self a t)
    have ht : sep ∉ t := fun h => hx (List.mem_cons_of_mem _ h)
    simp only [splitOnCharList, if_neg ha, ih ht]

theorem splitOnCharList_append (sep : Char) (x rest : List Char) (hx : sep ∉ x) :
    splitOnCharList sep (x ++ sep :: rest) = x :: splitOnCharList sep rest := by
  induction x with
  | nil => simp [splitOnCharList]
  | cons a t ih =>
    have ha : a ≠ sep := fun h => hx (h ▸ List.mem_cons_self a t)
    have ht : sep ∉ t := fun h => hx (List.mem_cons_of_mem _ h)
    simp only [List.cons_append, splitOnCharList, if_neg ha, List.append_eq, ih ht]

theorem split_join (sep : Char) :
    ∀ (l : List (List Char)), l ≠ [] → (∀ x ∈ l, sep ∉ x) →
      splitOnCharList sep (joinWithChar sep l) = l
  | [], h, _ => absurd rfl h
  | [x], _, hs => by
    simp only [joinWithChar]
    exact splitOnCharList_no_sep sep x (hs x (by simp))
  | x :: y :: t, _, hs => by
    simp only [joinWithChar]
    rw [splitOnCharList_append sep x _ (hs x (by simp))]
    rw [split_join sep (y :: t) (by simp)
      (fun z hz => hs z (List.mem_cons_of_mem _ hz))]

theorem pySplit_pyJoin (l : List String) (hne : l ≠ [])
    (hnl : ∀ s ∈ l, pyIn "\n" s = false) : pySplitNl (pyJoinNl l) = l := by
  unfold pySplitNl pyJoinNl
  rw [toList_mk]
  have hs : ∀ x ∈ l.map String.toList, '\n' ∉ x := by
    intro x hx
    obtain ⟨s, hsl, rfl⟩ := List.mem_map.mp hx
    intro hmem
    have hin := (pyIn_newline_iff s).mpr hmem
    rw [hnl s hsl] at hin
    exact absurd hin (by simp)
  rw [split_join '\n' (l.map String.toList) (by simpa using hne) hs]
  rw [List.map_map]
  have hid : (String.mk ∘ String.toList) = id := funext fun s => mk_toList s
  rw [hid, List.map_id]

theorem FS.read_write (fs : FS) (p c : String) :
    FS.read (FS.write fs p c) p = some c := by
  simp [FS.read, FS.write]

theorem isPre_eq_append :
    ∀ (n hay : List Char), isPre n hay = true → hay = n ++ hay.drop n.length := by
  intro n
  induction n with
  | nil => intro hay _; simp
  | cons x xs ih =>
    intro hay h
    cases hay with
    | nil => simp [isPre] at h
    | cons y ys =>
      simp only [isPre] at h
      by_cases hxy : x = y
      · subst hxy
        rw [if_pos rfl] at h
        have hys := ih ys h
        simp only [List.cons_append, List.length_cons, List.drop_succ_cons]
        exact congrArg (List.cons x) hys
      · rw [if_neg hxy] at h
        exact absurd h (by simp)

theorem breakSub_eq (needle : List Char) :
    ∀ (hay a b : List Char), breakSub needle hay = some (a, b) →
      hay = a ++ needle ++ b := by
  intro hay
  induction hay with
  | nil =>
    intro a b h
    simp only [breakSub] at h
    split at h
    · rename_i hne
      injection h with h
      injection h with h1 h2
      subst h1; subst h2
      cases needle with
      | nil => rfl
      | cons c cs => simp at hne
    · exact absurd h (by simp)
  | cons c t ih =>
    intro a b h
    simp only [breakSub] at h
    split at h
    · rename_i hpre
      injection h with h
      injection h with h1 h2
      subst h1; subst h2
      simpa using isPre_eq_append needle (c :: t) hpre
    · rw [Option.map_eq_some'] at h
      obtain ⟨⟨a1, b1⟩, hb, heq⟩ := h
      injection heq with h1 h2
      subst h1; subst h2
      have := ih a1 b1 hb
      simp only [List.cons_append]
      exact congrArg (List.cons c) this

theorem isPre_append_self (a b : List Char) : isPre a (a ++ b) = true := by
  induction a with
  | nil => rfl
  | cons x xs ih => simp [isPre, ih]

theorem startsWith_http_of_scheme (url : String)
    (hs : (pyUrlparse url).1 = "http" ∨ (pyUrlparse url).1 = "https") :
    pyStartsWith (pyLower url) "http" = true := by
  unfold pyUrlparse at hs
  cases hb : breakSub ("://".toList) url.toList with
  | none =>
    rw [hb] at hs
    simp only at hs
    rcases hs with h | h <;> exact absurd (congrArg String.toList h) (by decide)
  | some p =>
    obtain ⟨a, rest⟩ := p
    rw [hb] at hs
    simp only at hs
    have hurl : url.toList = a ++ "://".toList ++ rest := breakSub_eq _ _ _ _ hb
    unfold pyStartsWith pyLower
    rw [toList_mk, hurl]
    simp only [List.map_append]
    rcases hs with h | h
    · have ha : a.map Char.toLower = "http".toList := congrArg String.toList h
      rw [ha, List.append_assoc]
      exact isPre_append_self _ _
    · have ha : a.map Char.toLower = "https".toList := congrArg String.toList h
      have hsplit : ("https".toList : List Char) = "http".toList ++ ['s'] := rfl
      rw [ha, hsplit, List.append_assoc, List.append_assoc]
      rw [← List.append_assoc ("http".toList)]
      exact isPre_append_self _ _

/-! ### Claim theorems -/

/-- C1: the per-task handler does not retry and does not return a failure
record.  When the first `pooch.retrieve` attempt fails with a generic
exception, `pooch_retrieve_handling` propagates that exception (the only
`except` clause of the first `try` matches `KeyboardInterrupt`, so the
retry-without-progressbar block and the `(1, url)` failure record are
unreachable); a `KeyboardInterrupt` propagates as well. -/
theorem pooch_retrieve_handling_first_failure_propagates :
    pooch_retrieve_handling rErrA taskA = .error (.exception "boom") ∧
    pooch_retrieve_handling rKbA taskA =
      .error (.keyboardInterrupt "KeyboardInterrupt") := by
  exact ⟨rfl, rfl⟩

/-- C2 counterexample: `download_urls` with an empty url list and the valid
`n_jobs = 1` does not return `[]`; it raises the `n_jobs` range exception,
because `n_jobs` is clamped to `min(1, 0) = 0` before the range test. -/
theorem download_urls_empty_list_raises_cex :
    download_urls [] 1 "." emptyLogin true 40 rOkA =
      .error (.exception "n_jobs must be between 1 and 8 to avoid too many requests") := by
  rfl

/-- C2 (amended): for every `n_jobs` in `[1, 8]`, `download_urls` with an
empty url list raises the `n_jobs` range exception instead of returning an
empty list: the clamp `min(n_jobs, 0) = 0` lands outside `[1, 8]`. -/
theorem download_urls_empty_list_raises (n_jobs : Int) (dest : String)
    (login : Login) (dec : Bool) (lvl : Int)
    (r : String → Int → RetrieveOutcome)
    (h1 : 1 ≤ n_jobs) (h8 : n_jobs ≤ 8) :
    download_urls [] n_jobs dest login dec lvl r =
      .error (.exception "n_jobs must be between 1 and 8 to avoid too many requests") := by
  have h0 : n_jobs ≠ 0 := by omega
  simp only [download_urls, pyFloorDiv, if_neg h0, buildTasks]
  have hmin : min n_jobs ((([] : List Task).length : Nat) : Int) = 0 := by
    simp only [List.length_nil, Nat.cast_zero]
    omega
  rw [hmin]
  norm_num

/-- C2 witness: the amended statement applied at `n_jobs = 2`. -/
theorem download_urls_empty_list_raises_witness :
    download_urls [] 2 "." emptyLogin true 40 rOkA =
      .error (.exception "n_jobs must be between 1 and 8 to avoid too many requests") :=
  download_urls_empty_list_raises 2 "." emptyLogin true 40 rOkA (by norm_num) (by norm_num)

/-- C3 counterexample: `n_jobs = 9` with a single url does not raise any
configuration error before network activity: the clamp lowers it to 1 and a
retrieval is attempted — with a succeeding oracle the call returns the
retrieved path, and with a failing oracle it propagates the retrieval
error, so the result depends on the network. -/
theorem download_urls_njobs_nine_single_url_proceeds :
    download_urls ["http://h/a.nc"] 9 "." emptyLogin true 40 rOkA =
      .ok ["/tmp/x.nc"] ∧
    download_urls ["http://h/a.nc"] 9 "." emptyLogin true 40 rErrA =
      .error (.exception "boom") := by
  exact ⟨rfl, rfl⟩

/-- C3 (amended): `download_urls` fails before any retrieval exactly when
the clamped `min(n_jobs, len(urls))` is outside `[1, 8]`: for `n_jobs < 1`
(a `ZeroDivisionError` at 0, the range exception otherwise), and for
`n_jobs > 8` only when more than 8 urls are given.  In those cases the
result is an error and is independent of the retrieval oracle. -/
theorem download_urls_clamped_njobs_out_of_range_raises (urls : List String)
    (n_jobs : Int) (dest : String) (login : Login) (dec : Bool) (lvl : Int)
    (r r2 : String → Int → RetrieveOutcome)
    (h : n_jobs < 1 ∨ (8 < n_jobs ∧ 8 < (urls.length : Int))) :
    (∃ e, download_urls urls n_jobs dest login dec lvl r = .error e) ∧
    download_urls urls n_jobs dest login dec lvl r =
      download_urls urls n_jobs dest login dec lvl r2 := by
  by_cases h0 : n_jobs = 0
  · subst h0
    simp only [download_urls, pyFloorDiv, if_pos rfl]
    exact ⟨⟨.zeroDivisionError, rfl⟩, rfl⟩
  · simp only [download_urls, pyFloorDiv, if_neg h0]
    cases hb : buildTasks dest login dec
        (pyAnd01 (Int.fdiv 1 n_jobs) (if lvl ≤ 20 then 1 else 0)) urls with
    | error e => exact ⟨⟨e, rfl⟩, rfl⟩
    | ok tasks =>
      have hlen : (tasks.length : Int) = (urls.length : Int) := by
        have : ∀ (us : List String) (ts : List Task),
            buildTasks dest login dec
              (pyAnd01 (Int.fdiv 1 n_jobs) (if lvl ≤ 20 then 1 else 0)) us = .ok ts →
            ts.length = us.length := by
          intro us
          induction us with
          | nil =>
            intro ts hts
            simp only [buildTasks] at hts
            injection hts with hts
            subst hts
            rfl
          | cons u rest ih =>
            intro ts hts
            simp only [buildTasks] at hts
            cases hcd : choose_downloader u login
                (pyAnd01 (Int.fdiv 1 n_jobs) (if lvl ≤ 20 then 1 else 0)) with
            | error e => rw [hcd] at hts; exact absurd hts (by simp)
            | ok d =>
              rw [hcd] at hts
              cases hbt : buildTasks dest login dec
                  (pyAnd01 (Int.fdiv 1 n_jobs) (if lvl ≤ 20 then 1 else 0)) rest with
              | error e => rw [hbt] at hts; exact absurd hts (by simp)
              | ok ts2 =>
                rw [hbt] at hts
                injection hts with hts
                subst hts
                simp [ih ts2 hbt]
        exact_mod_cast congrArg Nat.cast (this urls tasks hb)
      have hne1 : ¬ (min n_jobs ((tasks.length : Nat) : Int) = 1) := by
        rcases h with h | ⟨h8, hlen8⟩
        · have := min_le_left n_jobs ((tasks.length : Nat) : Int)
          omega
        · have h8m : (8 : Int) < min n_jobs ((tasks.length : Nat) : Int) :=
            lt_min h8 (by omega)
          omega
      have hne2 : ¬ (1 < min n_jobs ((tasks.length : Nat) : Int) ∧
          min n_jobs ((tasks.length : Nat) : Int) ≤ 8) := by
        rcases h with h | ⟨h8, hlen8⟩
        · have := min_le_left n_jobs ((tasks.length : Nat) : Int)
          omega
        · have h8m : (8 : Int) < min n_jobs ((tasks.length : Nat) : Int) :=
            lt_min h8 (by omega)
          omega
      simp only [if_neg hne1, if_neg hne2]
      exact ⟨⟨_, rfl⟩, by trivial⟩

/-- C3 witness: the amended statement applied at `n_jobs = -1` and one url,
for two different retrieval oracles. -/
theorem download_urls_clamped_njobs_out_of_range_witness :
    (∃ e, download_urls ["http://h/a.nc"] (-1) "." emptyLogin true 40 rOkA = .error e) ∧
    download_urls ["http://h/a.nc"] (-1) "." emptyLogin true 40 rOkA =
      download_urls ["http://h/a.nc"] (-1) "." emptyLogin true 40 rErrA :=
  download_urls_clamped_njobs_out_of_range_raises ["http://h/a.nc"] (-1) "."
    emptyLogin true 40 rOkA rErrA (Or.inl (by norm_num))

/-- C4: `download` with `url=[]` does not return an empty result.  With
`create_readme=True` (the default) it raises `TypeError` while building the
README url short form (`commong_substring([])` returns `None` and `None +
"..."` fails); with `create_readme=False` it raises `AttributeError` when
the post-resolution log message evaluates
`commong_substring(urls).format_map(kwargs)` on `None` — in both cases
before the `len(urls) == 0` early return is reached. -/
theorem download_empty_url_list_raises :
    download (.list []) emptyLogin "./data" 1 true "_urls.cache" (.bool false)
      true true hashH globEmptyOk rOkA [] =
      .error (.typeError "unsupported operand type(s) for +: NoneType and str") ∧
    download (.list []) emptyLogin "./data" 1 true "_urls.cache" (.bool false)
      true false hashH globEmptyOk rOkA [] =
      .error (.attributeError "NoneType object has no attribute format_map") := by
  exact ⟨rfl, rfl⟩

/-- C6: with an `http` (not `https`) wildcard url, the glob results — which
for HTTP are already full urls — are re-prefixed with `protocol://host`,
because the source tests `protocol.startswith("https")` where its own HTTP
branch used `startswith("http")`; the listing for `http://h/d/*.nc` whose
server reports `http://h/d/a.nc` therefore returns the malformed
`http://hhttp://h/d/a.nc`. -/
theorem get_url_list_http_results_reprefixed :
    get_url_list "http://h/d/*.nc" none none false "c.txt" hashH globHttpA [] =
      .ok (["http://hhttp://h/d/a.nc"], []) := by
  rfl

/-- C7 counterexample: a login dict carrying both `username`/`password` and
`cookies` does not raise a credentials-conflict error for an http url:
`choose_downloader` checks `"cookies" in login` first and silently keeps
only the cookies. -/
theorem choose_downloader_both_credentials_no_error :
    choose_downloader "http://h/f.nc"
      { username := some "u", password := some "p", cookies := some "c" } 1 =
      .ok { scheme := "http", progressbar := 1, args := .cookies "c" } := by
  rfl

/-- C7 (amended): for every http/https url whose login dict contains
`cookies`, `choose_downloader` succeeds and uses exactly the cookies,
whatever else the dict contains; the conflict `KeyError` is only reachable
when the dict is non-empty and has neither `cookies` nor a complete
`username`/`password` pair. -/
theorem choose_downloader_cookies_precedence (url : String) (login : Login)
    (progress : Int) (c : String)
    (hs : (pyUrlparse url).1 = "http" ∨ (pyUrlparse url).1 = "https")
    (hc : login.cookies = some c) :
    choose_downloader url login progress =
      .ok { scheme := (pyUrlparse url).1, progressbar := progress,
            args := .cookies c } := by
  have hks : knownScheme (pyUrlparse url).1 = true := by
    rcases hs with h | h <;> rw [h] <;> rfl
  have hsw : pyStartsWith (pyLower url) "http" = true :=
    startsWith_http_of_scheme url hs
  have hne : login ≠ emptyLogin := by
    intro h
    rw [h] at hc
    exact absurd hc (by simp [emptyLogin])
  simp only [choose_downloader, hks, hsw, hc, Bool.true_eq_false, if_false,
    eq_self_iff_true, true_and]
  rw [if_pos hne]
  simp

/-- C7 witness: the amended statement applied to an https url whose login
carries only cookies. -/
theorem choose_downloader_cookies_precedence_witness :
    choose_downloader "https://h/f.nc"
      { username := none, password := none, cookies := some "tok" } 2 =
      .ok { scheme := "https", progressbar := 2, args := .cookies "tok" } :=
  choose_downloader_cookies_precedence "https://h/f.nc"
    { username := none, password := none, cookies := some "tok" } 2 "tok"
    (Or.inr (by decide)) rfl

/-- C8: the url short form for two identical urls is not the url itself.
`longest_substring_finder` only compares the running match against the
answer when a position mismatches, so the match still open when the inner
loop ends is discarded: for the pair `["ab", "ab"]` it returns `""`, and
the README short form becomes `"..."` instead of `"ab..."`. -/
theorem commong_substring_identical_pair_empty :
    commong_substring ["ab", "ab"] = some "" ∧
    create_download_readme_url (.list ["ab", "ab"]) = .ok "..." := by
  exact ⟨rfl, rfl⟩

/-- C9 counterexample: the url `http://h/a*.tar` matches the `.tar`
extension and no later extension entry, yet `choose_processor` returns no
processor: the final table entry `None: "*"` tests the literal character
`*` and overrides the `.tar` match. -/
theorem choose_processor_star_overrides_tar :
    pyIn ".tar" (pyLower "http://h/a*.tar") = true ∧
    pyIn ".zip" (pyLower "http://h/a*.tar") = false ∧
    pyIn ".gz" (pyLower "http://h/a*.tar") = false ∧
    choose_processor "http://h/a*.tar" = none := by
  exact ⟨rfl, rfl, rfl, rfl⟩

/-- C9 (amended): `choose_processor` is the last-match-wins scan of the
fixed table including its final `None: "*"` catch-all entry: a url
containing the literal character `*` gets no processor whatever else it
matches; otherwise `.zip` wins over `.tar`/`.tgz` (untar), which win over
`.gz` (covering `.gz2` and `.tar.gz` by substring containment), else no
processor. -/
theorem choose_processor_characterization (url : String) :
    choose_processor url =
      if pyIn "*" (pyLower url) = true then none
      else if pyIn ".zip" (pyLower url) = true then some .unzip
      else if pyIn ".tar" (pyLower url) = true ∨ pyIn ".tgz" (pyLower url) = true then
        some .untar
      else if pyIn ".gz" (pyLower url) = true then some .decompress
      else none := by
  have htargz : pyIn ".tar.gz" (pyLower url) = true → pyIn ".tar" (pyLower url) = true :=
    fun h => pyIn_mono ".tar.gz" ".tar" (pyLower url) (by decide) h
  have hgz2 : pyIn ".gz2" (pyLower url) = true → pyIn ".gz" (pyLower url) = true :=
    fun h => pyIn_mono ".gz2" ".gz" (pyLower url) (by decide) h
  simp only [choose_processor, known_processors, List.foldl_cons, List.foldl_nil]
  cases h7 : pyIn "*" (pyLower url) with
  | true => simp [h7]
  | false =>
    cases h6 : pyIn ".zip" (pyLower url) with
    | true => simp [h7, h6]
    | false =>
      cases h5 : pyIn ".tar.gz" (pyLower url) with
      | true =>
        have h3 := htargz h5
        simp [h7, h6, h5, h3]
      | false =>
        cases h4 : pyIn ".tgz" (pyLower url) with
        | true => simp [h7, h6, h5, h4]
        | false =>
          cases h3 : pyIn ".tar" (pyLower url) with
          | true => simp [h7, h6, h5, h4, h3]
          | false =>
            cases h2 : pyIn ".gz" (pyLower url) with
            | true => simp [h7, h6, h5, h4, h3, h2]
            | false =>
              have h1 : pyIn ".gz2" (pyLower url) = false := by
                cases h1 : pyIn ".gz2" (pyLower url) with
                | false => rfl
                | true => exact absurd (hgz2 h1) (by simp [h2])
              simp [h7, h6, h5, h4, h3, h2, h1]

/-- C5 counterexample: with `use_cache=True` and a remote listing that
succeeds with no matches, the first `get_url_list` call returns `[]` and
writes an empty cache file, but the second call with the same parameters
reads it back as `[""]` (Python's `"".split("\n")`), not the identical
list. -/
theorem get_url_list_cache_empty_listing_not_roundtrip :
    get_url_list "http://h/d/*.nc" none none true "c.txt" hashH globEmptyOk [] =
      .ok ([], [("c.txt", "")]) ∧
    get_url_list "http://h/d/*.nc" none none true "c.txt" hashH globEmptyOk
      [("c.txt", "")] = .ok ([""], [("c.txt", "")]) := by
  exact ⟨rfl, rfl⟩

/-- C5 (amended): for a wildcard url with no pre-existing cache file whose
remote listing succeeds with at least one (newline-free) match, the
`use_cache=True` call writes the cache file at the resolved cache path, and
a subsequent call with the same parameters returns the identical sorted url
list from that file, for any remote glob oracle (no network access). -/
theorem get_url_list_cache_roundtrip_nonempty (url cache_path : String)
    (user pass : Option String) (hashFn : String → String)
    (glob glob2 : String → GlobResult) (fs fs1 : FS) (out : List String)
    (hwild : pyIn "*" url = true)
    (hnocache : FS.read fs (resolveCachePath cache_path hashFn url) = none)
    (hfirst : get_url_list url user pass true cache_path hashFn glob fs =
      .ok (out, fs1))
    (hne : out ≠ [])
    (hnl : ∀ s ∈ out, pyIn "\n" s = false) :
    FS.read fs1 (resolveCachePath cache_path hashFn url) ≠ none ∧
    get_url_list url user pass true cache_path hashFn glob2 fs1 =
      .ok (out, fs1) := by
  unfold get_url_list at hfirst ⊢
  rw [hwild] at hfirst ⊢
  simp only [Bool.true_eq_false, if_false, hnocache] at hfirst ⊢
  unfold get_url_list_remote at hfirst
  cases hg : glob (globPathOf url) with
  | attrError => rw [hg] at hfirst; exact absurd hfirst (by simp)
  | typeError => rw [hg] at hfirst; exact absurd hfirst (by simp)
  | ok l =>
    rw [hg] at hfirst
    simp only [if_true, Except.ok.injEq, Prod.mk.injEq] at hfirst
    obtain ⟨hout, hfs⟩ := hfirst
    set flist := (if pyStartsWith (pyUrlparse url).1 "https" = false then
      l.map (fun f => (pyUrlparse url).1 ++ "://" ++ (pyUrlparse url).2.1 ++ f)
      else l) with hflist
    have hperm : List.Perm (pySorted flist) flist := by
      unfold pySorted
      exact List.perm_insertionSort _ flist
    have hfne : flist ≠ [] := by
      intro hnil
      rw [hnil] at hout
      exact hne ((hout.symm.trans rfl).symm ▸ hout.symm)
    have hfnl : ∀ s ∈ flist, pyIn "\n" s = false := by
      intro s hsin
      exact hnl s (hout ▸ hperm.mem_iff.mpr hsin)
    have hread : FS.read fs1 (resolveCachePath cache_path hashFn url) =
        some (pyJoinNl flist) := by
      rw [← hfs]
      exact FS.read_write fs (resolveCachePath cache_path hashFn url) (pyJoinNl flist)
    constructor
    · rw [hread]
      simp
    · rw [hread]
      simp only []
      rw [pySplit_pyJoin flist hfne hfnl, hout]

/-- C5 witness: the amended statement applied to `ftp://h/d/*.nc` with a
listing of two files returned unsorted; the second call runs against the
no-match oracle and still returns the same sorted list from the cache. -/
theorem get_url_list_cache_roundtrip_witness :
    FS.read fsAfterFtp (resolveCachePath "cache.txt" hashH "ftp://h/d/*.nc") ≠ none ∧
    get_url_list "ftp://h/d/*.nc" none none true "cache.txt" hashH globEmptyOk
      fsAfterFtp = .ok (outFtp, fsAfterFtp) :=
  get_url_list_cache_roundtrip_nonempty "ftp://h/d/*.nc" "cache.txt" none none
    hashH globFtp1 globEmptyOk [] fsAfterFtp outFtp (by rfl) (by rfl) (by rfl)
    (by simp [outFtp]) (by decide)

/-- Helper for C10: a downloader is only produced for known schemes. -/
theorem choose_downloader_ok_knownScheme (url : String) (login : Login)
    (pb : Int) (d : Downloader) (h : choose_downloader url login pb = .ok d) :
    knownScheme (pyUrlparse url).1 = true := by
  cases hks : knownScheme (pyUrlparse url).1 with
  | true => rfl
  | false =>
    exfalso
    simp only [choose_downloader, hks] at h
    exact absurd h (by simp)

/-- Helper for C10: a url with an unknown scheme anywhere in the list makes
the task-construction loop fail. -/
theorem buildTasks_error_of_badscheme (dest : String) (login : Login)
    (dec : Bool) (pb : Int) :
    ∀ (urls : List String), (∃ u ∈ urls, knownScheme (pyUrlparse u).1 = false) →
      ∃ e, buildTasks dest login dec pb urls = .error e := by
  intro urls
  induction urls with
  | nil =>
    rintro ⟨u, hu, _⟩
    cases hu
  | cons v rest ih =>
    rintro ⟨u, hu, hbad⟩
    simp only [buildTasks]
    cases hcd : choose_downloader v login pb with
    | error e => exact ⟨e, rfl⟩
    | ok d =>
      have hv : knownScheme (pyUrlparse v).1 = true :=
        choose_downloader_ok_knownScheme v login pb d hcd
      have hu2 : u ∈ rest := by
        rcases List.mem_cons.mp hu with h | h
        · subst h
          rw [hv] at hbad
          cases hbad
        · exact h
      obtain ⟨e, he⟩ := ih ⟨u, hu2, hbad⟩
      rw [he]
      exact ⟨e, rfl⟩

/-- C10: if any url in the list has a scheme other than ftp/http/https,
`download_urls` fails while constructing the task list (before any
retrieval): the result is an error and coincides for every retrieval
oracle, so the bad url aborts the whole batch instead of becoming one
recorded per-task failure. -/
theorem download_urls_unknown_scheme_aborts (urls : List String) (n_jobs : Int)
    (dest : String) (login : Login) (dec : Bool) (lvl : Int)
    (r r2 : String → Int → RetrieveOutcome)
    (h : ∃ u ∈ urls, knownScheme (pyUrlparse u).1 = false) :
    (∃ e, download_urls urls n_jobs dest login dec lvl r = .error e) ∧
    download_urls urls n_jobs dest login dec lvl r =
      download_urls urls n_jobs dest login dec lvl r2 := by
  by_cases h0 : n_jobs = 0
  · subst h0
    simp only [download_urls, pyFloorDiv, if_pos rfl]
    exact ⟨⟨.zeroDivisionError, rfl⟩, rfl⟩
  · simp only [download_urls, pyFloorDiv, if_neg h0]
    obtain ⟨e, he⟩ := buildTasks_error_of_badscheme dest login dec
      (pyAnd01 (Int.fdiv 1 n_jobs) (if lvl ≤ 20 then 1 else 0)) urls h
    rw [he]
    exact ⟨⟨e, rfl⟩, rfl⟩

/-- C10 witness: an `sftp` url aborts `download_urls` identically for a
succeeding and a failing retrieval oracle. -/
theorem download_urls_unknown_scheme_aborts_witness :
    (∃ e, download_urls ["sftp://h/a.nc"] 1 "." emptyLogin true 40 rOkA = .error e) ∧
    download_urls ["sftp://h/a.nc"] 1 "." emptyLogin true 40 rOkA =
      download_urls ["sftp://h/a.nc"] 1 "." emptyLogin true 40 rErrA :=
  download_urls_unknown_scheme_aborts ["sftp://h/a.nc"] 1 "." emptyLogin true 40
    rOkA rErrA ⟨"sftp://h/a.nc", List.mem_cons_self _ _, by rfl⟩

end FetchData
